import Mathlib

/-!
# Verification of the badminton 8somes scheduling and payout engine

A shallow embedding of the core scheduling, statistics and payout code
(`src/utils/scheduler.ts` and its extended variant) and proofs of the
specified properties.

Conventions of the embedding:
* JavaScript numbers holding game scores and monetary amounts are modelled
  as `Int`; counters are `Nat`.
* A JavaScript object used as a string-keyed map is modelled as an
  association list `List (String × _)` that preserves insertion order
  (string keys enumerate in insertion order in JS); `upsert` mirrors
  "create the key at the end if absent, otherwise update in place".
* `Array.prototype.sort` with a consistent comparator is a stable sort
  (ES2019); a stable sort with a total preorder comparator has a unique
  result, so it is modelled by `List.insertionSort`, which is stable.
* `Math.floor(Math.random() * (i + 1))` draws are modelled by an oracle
  `rand : Nat → Nat`; the draw for loop index `i` is `rand i % (i + 1)`,
  which ranges over exactly the values `0..i` the source can produce.
* Thrown exceptions are modelled with `Except String`.
-/

/-- A scheduled doubles game (`interface Game`). Scores is `none` while the
game has not been recorded. -/
structure Game where
  id : Nat
  team1 : String × String
  team2 : String × String
  team1Score : Option Int := none
  team2Score : Option Int := none
deriving Repr, DecidableEq

/-- A round of games (`interface Round`). -/
structure Round where
  roundNumber : Nat
  games : List Game
deriving Repr, DecidableEq

/-- A side bet (`interface SideBet`); `winner` is `some 1`, `some 2` or
`none` exactly as the source's `1 | 2 | null`. -/
structure SideBet where
  id : Nat
  team1 : String × String
  team2 : String × String
  amount : Int
  winner : Option Nat
deriving Repr, DecidableEq

/-- Swap the entries at positions `i` and `j` of a list, the effect of
`[a[i], a[j]] = [a[j], a[i]]` on a JS array. -/
def swapList (l : List α) (i j : Nat) : List α :=
  match l[i]?, l[j]? with
  | some a, some b => (l.set i b).set j a
  | _, _ => l

/-- The Fisher–Yates loop of `shuffleArray`: iterate `i` from `n-1` down
to `1`, swapping position `i` with a randomly drawn position `j ∈ [0, i]`.
`fisherYatesAux l i rand` runs the loop for indices `i, i-1, …, 1`. -/
def fisherYatesAux (rand : Nat → Nat) : List α → Nat → List α
  | l, 0 => l
  | l, i + 1 => fisherYatesAux rand (swapList l (i + 1) (rand (i + 1) % (i + 2))) i

/-- `shuffleArray`, with the random draws supplied by the oracle `rand`. -/
def shuffleArray (l : List α) (rand : Nat → Nat) : List α :=
  fisherYatesAux rand l (l.length - 1)

/-- The fixed 8-player round template of `generateRoundRobinSchedule`
(7 rounds × 2 games, each game given by the four positional slots
`[t1a, t1b, t2a, t2b]`). -/
def scheduleTemplate : List (List (List Nat)) := [
  [[0, 1, 2, 3], [4, 5, 6, 7]],
  [[0, 2, 4, 6], [1, 3, 5, 7]],
  [[0, 3, 5, 6], [1, 2, 4, 7]],
  [[0, 4, 3, 7], [1, 5, 2, 6]],
  [[0, 5, 1, 4], [2, 7, 3, 6]],
  [[0, 6, 1, 7], [2, 4, 3, 5]],
  [[0, 7, 1, 6], [2, 5, 3, 4]]]

/-- Build one round's games from a template round, threading the running
game id (`gameId++`). -/
def mkGames (sp : List String) (gid : Nat) : List (List Nat) → List Game
  | [] => []
  | g :: rest =>
    { id := gid,
      team1 := (sp.getD (g.getD 0 0) "", sp.getD (g.getD 1 0) ""),
      team2 := (sp.getD (g.getD 2 0) "", sp.getD (g.getD 3 0) "") }
      :: mkGames sp (gid + 1) rest

/-- Build the rounds from the template (`schedule.forEach`), threading the
game id and the 1-based round number. -/
def mkRounds (sp : List String) (gid rnum : Nat) : List (List (List Nat)) → List Round
  | [] => []
  | rg :: rest =>
    { roundNumber := rnum, games := mkGames sp gid rg }
      :: mkRounds sp (gid + rg.length) (rnum + 1) rest

/-- `generateRoundRobinSchedule`: checks the player count, shuffles, and
instantiates the fixed template. -/
def generateRoundRobinSchedule (players : List String) (rand : Nat → Nat) :
    Except String (List Round) :=
  if players.length ≠ 8 then
    .error "Exactly 8 players are required"
  else
    .ok (mkRounds (shuffleArray players rand) 1 1 scheduleTemplate)

/-- A team in 12-player mode: the pair of players as stored. -/
abbrev Team := String × String

/-- Slice a shuffled 12-player list into 6 consecutive pairs
(the `for (let i = 0; i < 12; i += 2)` loop unrolled). -/
def pairTeams (sp : List String) : List Team :=
  [(sp.getD 0 "", sp.getD 1 ""), (sp.getD 2 "", sp.getD 3 ""),
   (sp.getD 4 "", sp.getD 5 ""), (sp.getD 6 "", sp.getD 7 ""),
   (sp.getD 8 "", sp.getD 9 ""), (sp.getD 10 "", sp.getD 11 "")]

/-- The team list used by `generate12PlayerSchedule`: the custom teams when
exactly 6 are supplied, otherwise a random pairing. -/
def teamsFor (players : List String) (customTeams : Option (List Team))
    (rand : Nat → Nat) : List Team :=
  match customTeams with
  | some ct => if ct.length = 6 then ct else pairTeams (shuffleArray players rand)
  | none => pairTeams (shuffleArray players rand)

/-- `rotatingTeams.unshift(rotatingTeams.pop()!)`: move the last element of
the rotation list to the front. -/
def rotateBack (l : List Nat) : List Nat :=
  match l.getLast? with
  | some x => x :: l.dropLast
  | none => l

/-- One round of the circle method: team 0 versus the head of the rotation
list, then `rot[1]` vs `rot[4]` and `rot[2]` vs `rot[3]`. -/
def circleGames (teams : List Team) (rot : List Nat) (gid : Nat) : List Game :=
  [{ id := gid, team1 := teams.getD 0 ("", ""), team2 := teams.getD (rot.getD 0 0) ("", "") },
   { id := gid + 1, team1 := teams.getD (rot.getD 1 0) ("", ""),
     team2 := teams.getD (rot.getD 4 0) ("", "") },
   { id := gid + 2, team1 := teams.getD (rot.getD 2 0) ("", ""),
     team2 := teams.getD (rot.getD 3 0) ("", "") }]

/-- The `for (let round = 0; round < 5; round++)` loop: `n` is the number
of remaining rounds. -/
def circleLoop (teams : List Team) : List Nat → Nat → Nat → Nat → List Round
  | _, _, _, 0 => []
  | rot, gid, rnum, n + 1 =>
    { roundNumber := rnum, games := circleGames teams rot gid }
      :: circleLoop teams (rotateBack rot) (gid + 3) (rnum + 1) n

/-- The schedule `generate12PlayerSchedule` builds from a given team list. -/
def buildCircleSchedule (teams : List Team) : List Round :=
  circleLoop teams [1, 2, 3, 4, 5] 1 1 5

/-- `generate12PlayerSchedule`: checks the player count, forms teams, and
runs the circle method. -/
def generate12PlayerSchedule (players : List String)
    (customTeams : Option (List Team)) (rand : Nat → Nat) :
    Except String (List Round) :=
  if players.length ≠ 12 then
    .error "Exactly 12 players are required"
  else
    .ok (buildCircleSchedule (teamsFor players customTeams rand))

-- sanity examples (kept: they document concrete behaviour of the embedding)
example : swapList [10, 20, 30] 2 0 = [30, 20, 10] := rfl
example : shuffleArray [10, 20, 30] (fun _ => 0) = [20, 30, 10] := rfl
example : rotateBack [1, 2, 3, 4, 5] = [5, 1, 2, 3, 4] := rfl

section ShufflePerm

variable {α : Type _} [DecidableEq α]

theorem count_set (l : List α) (n : Nat) (b x : α) (h : n < l.length) :
    (l.set n b).count x + (if l[n] = x then 1 else 0)
      = l.count x + (if b = x then 1 else 0) := by
  induction l generalizing n with
  | nil => simp at h
  | cons c t ih =>
    cases n with
    | zero => simp [List.count_cons]; omega
    | succ m =>
      simp only [List.set_cons_succ, List.count_cons, List.getElem_cons_succ]
      have := ih m (by simpa using h)
      omega

theorem count_swapList (l : List α) (i j : Nat) (x : α) :
    (swapList l i j).count x = l.count x := by
  unfold swapList
  cases hi : l[i]? with
  | none => simp
  | some a =>
    cases hj : l[j]? with
    | none => simp
    | some b =>
      simp only
      have hil : i < l.length := (List.getElem?_eq_some.mp hi).1
      have hjl : j < l.length := (List.getElem?_eq_some.mp hj).1
      have ha : l[i] = a := by
        have := (List.getElem?_eq_some.mp hi).2; simpa using this
      have hb : l[j] = b := by
        have := (List.getElem?_eq_some.mp hj).2; simpa using this
      have h1 := count_set l i b x hil
      have hjl2 : j < (l.set i b).length := by simpa using hjl
      have h2 := count_set (l.set i b) j a x hjl2
      have hjb : (l.set i b)[j] = b := by
        by_cases hij : i = j
        · subst hij; simp
        · rw [List.getElem_set_ne (by omega)]; exact hb
      rw [hjb] at h2
      rw [ha] at h1
      by_cases hax : a = x <;> by_cases hbx : b = x <;>
        simp [hax, hbx] at h1 h2 ⊢ <;> omega

theorem perm_swapList (l : List α) (i j : Nat) : (swapList l i j).Perm l :=
  List.perm_iff_count.mpr fun x => count_swapList l i j x

theorem perm_fisherYatesAux (rand : Nat → Nat) (l : List α) (i : Nat) :
    (fisherYatesAux rand l i).Perm l := by
  induction i generalizing l with
  | zero => exact List.Perm.refl l
  | succ m ih =>
    exact (ih _).trans (perm_swapList _ _ _)

theorem perm_shuffleArray (l : List α) (rand : Nat → Nat) :
    (shuffleArray l rand).Perm l :=
  perm_fisherYatesAux rand l (l.length - 1)

theorem length_shuffleArray (l : List α) (rand : Nat → Nat) :
    (shuffleArray l rand).length = l.length :=
  (perm_shuffleArray l rand).length_eq

theorem nodup_shuffleArray (l : List α) (rand : Nat → Nat) (h : l.Nodup) :
    (shuffleArray l rand).Nodup :=
  ((perm_shuffleArray l rand).nodup_iff).mpr h

theorem mem_shuffleArray {l : List α} {x : α} (rand : Nat → Nat) :
    x ∈ shuffleArray l rand ↔ x ∈ l :=
  (perm_shuffleArray l rand).mem_iff

end ShufflePerm

/-- Per-player accumulators of `calculatePlayerStats`. -/
structure PlayerStats where
  totalPoints : Int := 0
  pointsLost : Int := 0
  gamesPlayed : Nat := 0
  wins : Nat := 0
  losses : Nat := 0
  gameScores : List Int := []
deriving Repr, DecidableEq

/-- `MAX_POINTS_PER_GAME`. -/
def MAX_POINTS_PER_GAME : Int := 21

/-- Update a string-keyed JS object entry: create the key at the end of the
insertion order if absent (from the default record), otherwise update the
stored value in place. -/
def upsert (p : String) (f : α → α) (d : α) : List (String × α) → List (String × α)
  | [] => [(p, f d)]
  | (q, s) :: rest => if q = p then (q, f s) :: rest else (q, s) :: upsert p f d rest

/-- First-match association-list lookup (`stats[player]`). -/
def lookupA (p : String) : List (String × α) → Option α
  | [] => none
  | (q, s) :: rest => if q = p then some s else lookupA p rest

/-- The per-player mutation performed for one side of a scored game:
`score` is this side's score and `won` says whether this side's counter
`wins` (rather than `losses`) is incremented. -/
def applySide (score : Int) (won : Bool) (s : PlayerStats) : PlayerStats :=
  { s with
    totalPoints := s.totalPoints + score,
    pointsLost := s.pointsLost + (MAX_POINTS_PER_GAME - score),
    gameScores := s.gameScores ++ [score],
    gamesPlayed := s.gamesPlayed + 1,
    wins := if won then s.wins + 1 else s.wins,
    losses := if won then s.losses else s.losses + 1 }

/-- Fold one game into the running stats map: nothing for an unscored game;
otherwise team 1's two players then team 2's two players are updated, with
`team1Won = team1Score > team2Score` deciding wins and losses. -/
def statsStep (st : List (String × PlayerStats)) (g : Game) :
    List (String × PlayerStats) :=
  match g.team1Score, g.team2Score with
  | some s1, some s2 =>
    let won := decide (s1 > s2)
    upsert g.team2.2 (applySide s2 (!won)) {}
      (upsert g.team2.1 (applySide s2 (!won)) {}
        (upsert g.team1.2 (applySide s1 won) {}
          (upsert g.team1.1 (applySide s1 won) {} st)))
  | _, _ => st

/-- `calculatePlayerStats`. -/
def calculatePlayerStats (rounds : List Round) : List (String × PlayerStats) :=
  rounds.foldl (fun st r => r.games.foldl statsStep st) []

section UpsertLemmas

variable {α : Type _}

theorem lookupA_upsert_self (p : String) (f : α → α) (d : α) (st : List (String × α)) :
    lookupA p (upsert p f d st) = some (f ((lookupA p st).getD d)) := by
  induction st with
  | nil => simp [upsert, lookupA]
  | cons e rest ih =>
    by_cases h : e.1 = p
    · simp [upsert, lookupA, h]
    · simp [upsert, lookupA, h, ih]

theorem lookupA_upsert_ne (p q : String) (hne : q ≠ p) (f : α → α) (d : α)
    (st : List (String × α)) : lookupA p (upsert q f d st) = lookupA p st := by
  induction st with
  | nil => simp [upsert, lookupA, hne]
  | cons e rest ih =>
    by_cases h : e.1 = q
    · have : e.1 ≠ p := h ▸ hne
      simp [upsert, lookupA, h, this, hne]
    · by_cases h2 : e.1 = p <;>
        simp [upsert, lookupA, h, h2, ih, hne, Ne.symm hne]

theorem isSome_lookupA_upsert (p q : String) (f : α → α) (d : α)
    (st : List (String × α)) :
    (lookupA p (upsert q f d st)).isSome
      = ((lookupA p st).isSome || (q = p)) := by
  by_cases h : q = p
  · subst h; rw [lookupA_upsert_self]; simp
  · rw [lookupA_upsert_ne p q h]; simp [h]

end UpsertLemmas

/-- The `pointsLost` a player currently has in the stats map (0 if the
player has no entry, matching the fresh-entry default). -/
def plOf (p : String) (st : List (String × PlayerStats)) : Int :=
  ((lookupA p st).getD {}).pointsLost

/-- The `wins` a player currently has in the stats map. -/
def winsOf (p : String) (st : List (String × PlayerStats)) : Nat :=
  ((lookupA p st).getD {}).wins

/-- The `losses` a player currently has in the stats map. -/
def lossesOf (p : String) (st : List (String × PlayerStats)) : Nat :=
  ((lookupA p st).getD {}).losses

/-- How many of a side's two slots are player `p` (1 for a well-formed
side containing `p`, 0 otherwise). -/
def cntSide (p : String) (t : String × String) : Nat :=
  (if t.1 = p then 1 else 0) + (if t.2 = p then 1 else 0)

/-- Whether a game has both scores recorded. -/
def isScored (g : Game) : Bool := g.team1Score.isSome && g.team2Score.isSome

/-- Whether player `p` occupies a slot of game `g`. -/
def inGame (p : String) (g : Game) : Bool :=
  g.team1.1 = p || g.team1.2 = p || g.team2.1 = p || g.team2.2 = p

/-- What one game adds to `p`'s `pointsLost`: `21 - score` for each slot of
a scored game that `p` occupies, and nothing for an unscored game. -/
def gamePL (p : String) (g : Game) : Int :=
  match g.team1Score, g.team2Score with
  | some s1, some s2 =>
    (cntSide p g.team1 : Int) * (MAX_POINTS_PER_GAME - s1)
      + (cntSide p g.team2 : Int) * (MAX_POINTS_PER_GAME - s2)
  | _, _ => 0

/-- What one game adds to `p`'s `wins`: team-1 slots win on a strictly
greater team-1 score, team-2 slots win otherwise — including ties. -/
def gameWins (p : String) (g : Game) : Nat :=
  match g.team1Score, g.team2Score with
  | some s1, some s2 =>
    cntSide p g.team1 * (if s1 > s2 then 1 else 0)
      + cntSide p g.team2 * (if s1 > s2 then 0 else 1)
  | _, _ => 0

/-- What one game adds to `p`'s `losses` (the complement of `gameWins`
among occupied slots of scored games). -/
def gameLosses (p : String) (g : Game) : Nat :=
  match g.team1Score, g.team2Score with
  | some s1, some s2 =>
    cntSide p g.team1 * (if s1 > s2 then 0 else 1)
      + cntSide p g.team2 * (if s1 > s2 then 1 else 0)
  | _, _ => 0

theorem plOf_upsert (p t : String) (s : Int) (w : Bool)
    (st : List (String × PlayerStats)) :
    plOf p (upsert t (applySide s w) {} st)
      = plOf p st + (if t = p then MAX_POINTS_PER_GAME - s else 0) := by
  by_cases h : t = p
  · subst h
    rw [plOf, lookupA_upsert_self]
    simp [applySide, plOf]
  · rw [plOf, lookupA_upsert_ne p t h, if_neg h, add_zero, plOf]

theorem winsOf_upsert (p t : String) (s : Int) (w : Bool)
    (st : List (String × PlayerStats)) :
    winsOf p (upsert t (applySide s w) {} st)
      = winsOf p st + (if t = p then (if w then 1 else 0) else 0) := by
  by_cases h : t = p
  · subst h
    rw [winsOf, lookupA_upsert_self]
    cases w <;> simp [applySide, winsOf]
  · rw [winsOf, lookupA_upsert_ne p t h, if_neg h, add_zero, winsOf]

theorem lossesOf_upsert (p t : String) (s : Int) (w : Bool)
    (st : List (String × PlayerStats)) :
    lossesOf p (upsert t (applySide s w) {} st)
      = lossesOf p st + (if t = p then (if w then 0 else 1) else 0) := by
  by_cases h : t = p
  · subst h
    rw [lossesOf, lookupA_upsert_self]
    cases w <;> simp [applySide, lossesOf]
  · rw [lossesOf, lookupA_upsert_ne p t h, if_neg h, add_zero, lossesOf]

theorem plOf_statsStep (p : String) (st : List (String × PlayerStats)) (g : Game) :
    plOf p (statsStep st g) = plOf p st + gamePL p g := by
  unfold statsStep gamePL
  cases g.team1Score <;> cases g.team2Score <;> simp only
  case some.some s1 s2 =>
    rw [plOf_upsert, plOf_upsert, plOf_upsert, plOf_upsert]
    unfold cntSide
    push_cast
    split_ifs <;> ring
  all_goals rw [add_zero]

theorem winsOf_statsStep (p : String) (st : List (String × PlayerStats)) (g : Game) :
    winsOf p (statsStep st g) = winsOf p st + gameWins p g := by
  unfold statsStep gameWins
  cases g.team1Score <;> cases g.team2Score <;> simp only
  case some.some s1 s2 =>
    rw [winsOf_upsert, winsOf_upsert, winsOf_upsert, winsOf_upsert]
    unfold cntSide
    by_cases hw : s1 > s2 <;> simp [hw] <;> split_ifs <;> ring
  all_goals rw [add_zero]

theorem lossesOf_statsStep (p : String) (st : List (String × PlayerStats)) (g : Game) :
    lossesOf p (statsStep st g) = lossesOf p st + gameLosses p g := by
  unfold statsStep gameLosses
  cases g.team1Score <;> cases g.team2Score <;> simp only
  case some.some s1 s2 =>
    rw [lossesOf_upsert, lossesOf_upsert, lossesOf_upsert, lossesOf_upsert]
    unfold cntSide
    by_cases hw : s1 > s2 <;> simp [hw] <;> split_ifs <;> ring
  all_goals rw [add_zero]

theorem isSome_statsStep (p : String) (st : List (String × PlayerStats)) (g : Game) :
    (lookupA p (statsStep st g)).isSome
      = ((lookupA p st).isSome || (isScored g && inGame p g)) := by
  unfold statsStep isScored inGame
  cases g.team1Score <;> cases g.team2Score <;> simp only
  case some.some s1 s2 =>
    rw [isSome_lookupA_upsert, isSome_lookupA_upsert, isSome_lookupA_upsert,
      isSome_lookupA_upsert]
    simp [Bool.or_assoc]
  all_goals simp

theorem plOf_foldGames (p : String) (gs : List Game) (st : List (String × PlayerStats)) :
    plOf p (gs.foldl statsStep st) = plOf p st + ((gs.map (gamePL p)).sum) := by
  induction gs generalizing st with
  | nil => simp
  | cons g rest ih => simp [ih, plOf_statsStep, add_assoc]

theorem winsOf_foldGames (p : String) (gs : List Game) (st : List (String × PlayerStats)) :
    winsOf p (gs.foldl statsStep st) = winsOf p st + ((gs.map (gameWins p)).sum) := by
  induction gs generalizing st with
  | nil => simp
  | cons g rest ih => simp [ih, winsOf_statsStep, add_assoc]

theorem lossesOf_foldGames (p : String) (gs : List Game) (st : List (String × PlayerStats)) :
    lossesOf p (gs.foldl statsStep st) = lossesOf p st + ((gs.map (gameLosses p)).sum) := by
  induction gs generalizing st with
  | nil => simp
  | cons g rest ih => simp [ih, lossesOf_statsStep, add_assoc]

theorem isSome_foldGames (p : String) (gs : List Game) (st : List (String × PlayerStats)) :
    (lookupA p (gs.foldl statsStep st)).isSome
      = ((lookupA p st).isSome || gs.any fun g => isScored g && inGame p g) := by
  induction gs generalizing st with
  | nil => simp
  | cons g rest ih => simp [ih, isSome_statsStep, Bool.or_assoc]

theorem plOf_stats (p : String) (rounds : List Round) :
    plOf p (calculatePlayerStats rounds)
      = ((rounds.map fun r => ((r.games.map (gamePL p)).sum)).sum) := by
  have key : ∀ (rs : List Round) (st : List (String × PlayerStats)),
      plOf p (rs.foldl (fun st r => r.games.foldl statsStep st) st)
        = plOf p st + ((rs.map fun r => ((r.games.map (gamePL p)).sum)).sum) := by
    intro rs
    induction rs with
    | nil => simp
    | cons r rest ih => intro st; simp [ih, plOf_foldGames, add_assoc]
  have := key rounds []
  simpa [calculatePlayerStats, plOf, lookupA] using this

theorem winsOf_stats (p : String) (rounds : List Round) :
    winsOf p (calculatePlayerStats rounds)
      = ((rounds.map fun r => ((r.games.map (gameWins p)).sum)).sum) := by
  have key : ∀ (rs : List Round) (st : List (String × PlayerStats)),
      winsOf p (rs.foldl (fun st r => r.games.foldl statsStep st) st)
        = winsOf p st + ((rs.map fun r => ((r.games.map (gameWins p)).sum)).sum) := by
    intro rs
    induction rs with
    | nil => simp
    | cons r rest ih => intro st; simp [ih, winsOf_foldGames, add_assoc]
  have := key rounds []
  simpa [calculatePlayerStats, winsOf, lookupA] using this

theorem lossesOf_stats (p : String) (rounds : List Round) :
    lossesOf p (calculatePlayerStats rounds)
      = ((rounds.map fun r => ((r.games.map (gameLosses p)).sum)).sum) := by
  have key : ∀ (rs : List Round) (st : List (String × PlayerStats)),
      lossesOf p (rs.foldl (fun st r => r.games.foldl statsStep st) st)
        = lossesOf p st + ((rs.map fun r => ((r.games.map (gameLosses p)).sum)).sum) := by
    intro rs
    induction rs with
    | nil => simp
    | cons r rest ih => intro st; simp [ih, lossesOf_foldGames, add_assoc]
  have := key rounds []
  simpa [calculatePlayerStats, lossesOf, lookupA] using this

theorem isSome_stats (p : String) (rounds : List Round) :
    (lookupA p (calculatePlayerStats rounds)).isSome
      = rounds.any fun r => r.games.any fun g => isScored g && inGame p g := by
  have key : ∀ (rs : List Round) (st : List (String × PlayerStats)),
      (lookupA p (rs.foldl (fun st r => r.games.foldl statsStep st) st)).isSome
        = ((lookupA p st).isSome
            || rs.any fun r => r.games.any fun g => isScored g && inGame p g) := by
    intro rs
    induction rs with
    | nil => simp
    | cons r rest ih => intro st; simp [ih, isSome_foldGames, Bool.or_assoc]
  have := key rounds []
  simpa [calculatePlayerStats, lookupA] using this

theorem sum_map_flatMap_games (rounds : List Round) (f : Game → Int) :
    (((rounds.flatMap Round.games).map f).sum)
      = ((rounds.map fun r => ((r.games.map f).sum)).sum) := by
  simp [List.flatMap_def, List.map_flatten, List.sum_flatten, Function.comp_def]

theorem sum_map_flatMap_games_nat (rounds : List Round) (f : Game → Nat) :
    (((rounds.flatMap Round.games).map f).sum)
      = ((rounds.map fun r => ((r.games.map f).sum)).sum) := by
  simp [List.flatMap_def, List.map_flatten, List.sum_flatten, Function.comp_def]

theorem statsStep_unscored (st : List (String × PlayerStats)) (g : Game)
    (h : isScored g = false) : statsStep st g = st := by
  unfold statsStep
  cases h1 : g.team1Score <;> cases h2 : g.team2Score <;> simp only
  simp [isScored, h1, h2] at h

theorem foldGames_filter_scored (gs : List Game) (st : List (String × PlayerStats)) :
    (gs.filter isScored).foldl statsStep st = gs.foldl statsStep st := by
  induction gs generalizing st with
  | nil => rfl
  | cons g rest ih =>
    by_cases h : isScored g
    · simp [List.filter_cons, h, ih]
    · simp only [Bool.not_eq_true] at h
      simp [List.filter_cons, h, ih, statsStep_unscored st g h]

/-- A schedule with the unscored games removed from every round. -/
def scoredOnly (rounds : List Round) : List Round :=
  rounds.map fun r => { r with games := r.games.filter isScored }

/-- A one-game schedule ending in a 21–21 tie. -/
def tieRounds : List Round :=
  [{ roundNumber := 1,
     games := [{ id := 1, team1 := ("A", "B"), team2 := ("C", "D"),
                 team1Score := some 21, team2Score := some 21 }] }]

/-- C1 counterexample: in the 21–21 tied game, the code gives the team-2
players a win and the team-1 players a loss, so a tied game does not leave
wins and losses untouched as the claim states. -/
theorem c1_tie_counterexample :
    winsOf "C" (calculatePlayerStats tieRounds) = 1
      ∧ lossesOf "A" (calculatePlayerStats tieRounds) = 1
      ∧ winsOf "A" (calculatePlayerStats tieRounds) = 0
      ∧ lossesOf "C" (calculatePlayerStats tieRounds) = 0 := by
  decide

/-- C1 (amended): for every schedule and player, `calculatePlayerStats`
assigns wins and losses by the comparison `team1Score > team2Score` alone:
a team-1 slot of a scored game counts as a win exactly when team 1's score
is strictly greater (otherwise a loss), and a team-2 slot counts as a win
exactly when team 1's score is not strictly greater (otherwise a loss) —
so a tied game counts as a loss for team-1 players and a win for team-2
players. -/
theorem c1_wins_losses (rounds : List Round) (p : String) :
    ((lookupA p (calculatePlayerStats rounds)).getD {}).wins
        = (((rounds.flatMap Round.games).map (gameWins p)).sum)
      ∧ ((lookupA p (calculatePlayerStats rounds)).getD {}).losses
        = (((rounds.flatMap Round.games).map (gameLosses p)).sum) := by
  constructor
  · rw [sum_map_flatMap_games_nat]
    exact winsOf_stats p rounds
  · rw [sum_map_flatMap_games_nat]
    exact lossesOf_stats p rounds

/-- A one-game schedule in which team 1 scores 22, above the 21 ceiling. -/
def overRounds : List Round :=
  [{ roundNumber := 1,
     games := [{ id := 1, team1 := ("A", "B"), team2 := ("C", "D"),
                 team1Score := some 22, team2Score := some 10 }] }]

/-- C6: each player's `pointsLost` is the sum, over the scored games the
player occupies, of `21 - score` of that player's side (`gamePL` is 0 on
unscored games and `21 - score` per occupied slot otherwise), and there is
no clamping: a side score of 22 contributes the negative amount −1. -/
theorem c6_pointsLost (rounds : List Round) (p : String) :
    ((lookupA p (calculatePlayerStats rounds)).getD {}).pointsLost
        = (((rounds.flatMap Round.games).map (gamePL p)).sum)
      ∧ ((lookupA "A" (calculatePlayerStats overRounds)).getD {}).pointsLost = -1 := by
  constructor
  · rw [sum_map_flatMap_games]
    exact plOf_stats p rounds
  · decide

/-- C9: unscored games contribute nothing (removing them changes nothing in
the output of `calculatePlayerStats`), and a player has an entry in the
output exactly when some scored game contains the player — in particular a
player occurring only in unscored games is absent, not present with zeros. -/
theorem c9_unscored_absent (rounds : List Round) :
    calculatePlayerStats (scoredOnly rounds) = calculatePlayerStats rounds
      ∧ ∀ p : String, (lookupA p (calculatePlayerStats rounds)).isSome = true
          ↔ ∃ r ∈ rounds, ∃ g ∈ r.games, isScored g = true ∧ inGame p g = true := by
  constructor
  · unfold calculatePlayerStats scoredOnly
    generalize ([] : List (String × PlayerStats)) = st
    induction rounds generalizing st with
    | nil => rfl
    | cons r rest ih => simp [ih, foldGames_filter_scored]
  · intro p
    rw [isSome_stats]
    simp [List.any_eq_true, and_assoc]

/-- C5: each generator fails, with its "Exactly N players are required"
error, exactly when the input length differs from its required count, and
succeeds (for every outcome of the shuffle) exactly when the length is
right. -/
theorem c5_invalid_player_count (players : List String) (rand : Nat → Nat)
    (customTeams : Option (List Team)) :
    (generateRoundRobinSchedule players rand
        = .error "Exactly 8 players are required" ↔ players.length ≠ 8)
      ∧ ((∃ rs, generateRoundRobinSchedule players rand = .ok rs)
          ↔ players.length = 8)
      ∧ (generate12PlayerSchedule players customTeams rand
          = .error "Exactly 12 players are required" ↔ players.length ≠ 12)
      ∧ ((∃ rs, generate12PlayerSchedule players customTeams rand = .ok rs)
          ↔ players.length = 12) := by
  unfold generateRoundRobinSchedule generate12PlayerSchedule
  by_cases h8 : players.length = 8 <;> by_cases h12 : players.length = 12 <;>
    simp [h8, h12]

/-- C10: with 12 players and a malformed `customTeams` argument (length ≠
6), the custom teams are silently ignored: the generator succeeds and
returns exactly the schedule it builds from the random pairing, the same
result as when no custom teams are passed at all. -/
theorem c10_malformed_custom_teams (players : List String) (ct : List Team)
    (rand : Nat → Nat) (h12 : players.length = 12) (h6 : ct.length ≠ 6) :
    generate12PlayerSchedule players (some ct) rand
        = .ok (buildCircleSchedule (pairTeams (shuffleArray players rand)))
      ∧ generate12PlayerSchedule players (some ct) rand
        = generate12PlayerSchedule players none rand := by
  unfold generate12PlayerSchedule teamsFor
  simp [h12, h6]

/-- Twelve concrete player names for witnesses. -/
def demo12 : List String :=
  ["P1", "P2", "P3", "P4", "P5", "P6", "P7", "P8", "P9", "P10", "P11", "P12"]

/-- Witness for C10 at a concrete malformed input: 12 players and a
1-element custom team list. -/
theorem c10_witness :
    demo12.length = 12 ∧ [(("X", "Y") : Team)].length ≠ 6
      ∧ (generate12PlayerSchedule demo12 (some [("X", "Y")]) (fun _ => 0)
            = .ok (buildCircleSchedule (pairTeams (shuffleArray demo12 (fun _ => 0))))
          ∧ generate12PlayerSchedule demo12 (some [("X", "Y")]) (fun _ => 0)
            = generate12PlayerSchedule demo12 none (fun _ => 0)) :=
  ⟨by decide, by decide,
    c10_malformed_custom_teams demo12 [("X", "Y")] (fun _ => 0) (by decide) (by decide)⟩

/-- The comparator `(a, b) => a.pointsLost - b.pointsLost` as a preorder. -/
def plLE (a b : String × PlayerStats) : Prop := a.2.pointsLost ≤ b.2.pointsLost

instance : DecidableRel plLE := fun a b => inferInstanceAs (Decidable (_ ≤ _))

/-- The ranking of `calculatePayouts`: stats entries stably sorted by
`pointsLost` ascending. -/
def sortedStats (rounds : List Round) : List (String × PlayerStats) :=
  (calculatePlayerStats rounds).insertionSort plLE

/-- Add the positional prizes to the first entries of the payout list
(`if (index < prizes.length) payouts[player] += prizes[index]`). -/
def addPrizes : List (String × Int) → List Int → List (String × Int)
  | l, [] => l
  | [], _ => []
  | (p, v) :: rest, pr :: prs => (p, v + pr) :: addPrizes rest prs

/-- `calculatePayouts`: rank by fewest points lost, charge every ranked
player the entry fee, and pay the prizes 8, 6, 2 to the top three. -/
def calculatePayouts (rounds : List Round) (entryFee : Int) : List (String × Int) :=
  addPrizes ((sortedStats rounds).map fun pr => (pr.1, -entryFee)) [8, 6, 2]

/-- Fold one side bet into the running totals (`totals[player] =
(totals[player] || 0) ± sideBet.amount`). -/
def sideBetStep (st : List (String × Int)) (b : SideBet) : List (String × Int) :=
  if b.winner = some 1 then
    upsert b.team2.2 (· - b.amount) 0
      (upsert b.team2.1 (· - b.amount) 0
        (upsert b.team1.2 (· + b.amount) 0
          (upsert b.team1.1 (· + b.amount) 0 st)))
  else if b.winner = some 2 then
    upsert b.team1.2 (· - b.amount) 0
      (upsert b.team1.1 (· - b.amount) 0
        (upsert b.team2.2 (· + b.amount) 0
          (upsert b.team2.1 (· + b.amount) 0 st)))
  else st

/-- `calculateSideBetTotals`. -/
def calculateSideBetTotals (sideBets : List SideBet) : List (String × Int) :=
  sideBets.foldl sideBetStep []

instance : IsTotal (String × PlayerStats) plLE :=
  ⟨fun a b => le_total a.2.pointsLost b.2.pointsLost⟩

instance : IsTrans (String × PlayerStats) plLE :=
  ⟨fun _ _ _ hab hbc => le_trans hab hbc⟩

/-- Stability of `insertionSort` for a class of mutually `r`-related
elements: the elements satisfying `P` keep their original relative order. -/
theorem filter_insertionSort {α : Type _} (r : α → α → Prop) [DecidableRel r]
    [IsTrans α r] (P : α → Bool) (hP : ∀ a b, P a → P b → r a b) (l : List α) :
    (l.insertionSort r).filter P = l.filter P := by
  have hpair : (l.filter P).Pairwise r :=
    List.pairwise_of_forall_mem_list fun a ha b hb =>
      hP a b (List.of_mem_filter ha) (List.of_mem_filter hb)
  have h1 : List.Sublist (l.filter P) (l.insertionSort r) :=
    List.sublist_insertionSort hpair (List.filter_sublist l)
  have h2 : List.Sublist (l.filter P) ((l.insertionSort r).filter P) := by
    have h3 := h1.filter P
    rwa [List.filter_filter, show (fun a => P a && P a) = P by
      funext a; cases P a <;> rfl] at h3
  have hlen : ((l.insertionSort r).filter P).length = (l.filter P).length :=
    ((List.perm_insertionSort r l).filter P).length_eq
  exact (h2.eq_of_length hlen.symm).symm

theorem addPrizes_length (l : List (String × Int)) (prs : List Int) :
    (addPrizes l prs).length = l.length := by
  induction l generalizing prs with
  | nil => cases prs <;> rfl
  | cons e rest ih => cases prs <;> simp [addPrizes, ih]

theorem addPrizes_get (l : List (String × Int)) (prs : List Int) (i : Nat)
    (h : i < (addPrizes l prs).length) (hl : i < l.length) :
    (addPrizes l prs).get ⟨i, h⟩
      = ((l.get ⟨i, hl⟩).1, (l.get ⟨i, hl⟩).2 + prs.getD i 0) := by
  induction l generalizing prs i with
  | nil => simp at hl
  | cons e rest ih =>
    cases prs with
    | nil => cases i <;> simp [addPrizes]
    | cons pr prs2 =>
      cases i with
      | zero => simp [addPrizes]
      | succ m =>
        have hm : m < (addPrizes rest prs2).length := by
          simpa [addPrizes] using h
        simpa [addPrizes] using ih prs2 m hm (by simpa using hl)

theorem addPrizes_sum (l : List (String × Int)) (prs : List Int) :
    ((addPrizes l prs).map Prod.snd).sum
      = ((l.map Prod.snd).sum) + ((prs.take l.length).sum) := by
  induction l generalizing prs with
  | nil => cases prs <;> simp [addPrizes]
  | cons e rest ih =>
    cases prs with
    | nil => simp [addPrizes]
    | cons pr prs2 => simp [addPrizes, ih, List.take_succ_cons]; ring

/-- A one-game schedule for payout witnesses: four ranked players. -/
def payoutDemo : List Round :=
  [{ roundNumber := 1,
     games := [{ id := 1, team1 := ("A", "B"), team2 := ("C", "D"),
                 team1Score := some 21, team2Score := some 15 }] }]

/-- C4 counterexample: on the empty schedule nobody is ranked, so the sum
of all payout amounts is 0, not (8+6+2) − 0·entryFee = 16 as the claim
states for every schedule. -/
theorem c4_zero_sum_counterexample :
    ¬ (((calculatePayouts [] 2).map Prod.snd).sum
        = 16 - ((calculatePlayerStats ([] : List Round)).length : Int) * 2) := by
  decide

/-- C4 (amended): `calculatePayouts` ranks the players of the derived
statistics by `pointsLost` ascending with ties in encounter order (a
stable sort: the ranking is a sorted permutation of the stats whose
equal-`pointsLost` entries keep their original order); entry `i` of the
result is the `i`-th ranked player with net amount `−entryFee` plus the
prize `[8, 6, 2].getD i 0`; and the amounts sum to
`(sum of the first min(3, n) prizes) − n·entryFee` for `n` ranked players —
in particular to `(8+6+2) − n·entryFee` whenever at least 3 players are
ranked (so exactly 0 for the standard fee 2 with 8 ranked players). -/
theorem c4_payouts (rounds : List Round) (entryFee : Int) :
    (sortedStats rounds).Pairwise
        (fun a b => a.2.pointsLost ≤ b.2.pointsLost)
      ∧ (sortedStats rounds).Perm (calculatePlayerStats rounds)
      ∧ (∀ v : Int, (sortedStats rounds).filter
            (fun pr => decide (pr.2.pointsLost = v))
          = (calculatePlayerStats rounds).filter
            (fun pr => decide (pr.2.pointsLost = v)))
      ∧ (calculatePayouts rounds entryFee).length
          = (calculatePlayerStats rounds).length
      ∧ (∀ (i : Nat) (h : i < (calculatePayouts rounds entryFee).length)
            (h2 : i < (sortedStats rounds).length),
          (calculatePayouts rounds entryFee).get ⟨i, h⟩
            = (((sortedStats rounds).get ⟨i, h2⟩).1,
               -entryFee + [8, 6, 2].getD i 0))
      ∧ ((calculatePayouts rounds entryFee).map Prod.snd).sum
          = (([8, 6, 2].take (calculatePlayerStats rounds).length).sum)
            - ((calculatePlayerStats rounds).length : Int) * entryFee
      ∧ (3 ≤ (calculatePlayerStats rounds).length →
          ((calculatePayouts rounds entryFee).map Prod.snd).sum
            = 16 - ((calculatePlayerStats rounds).length : Int) * entryFee) := by
  have hsorted : (sortedStats rounds).Pairwise
      (fun a b => a.2.pointsLost ≤ b.2.pointsLost) :=
    List.sorted_insertionSort plLE (calculatePlayerStats rounds)
  have hperm : (sortedStats rounds).Perm (calculatePlayerStats rounds) :=
    List.perm_insertionSort plLE (calculatePlayerStats rounds)
  have hlen : (sortedStats rounds).length = (calculatePlayerStats rounds).length :=
    hperm.length_eq
  have hmapsnd : ((sortedStats rounds).map fun pr : String × PlayerStats =>
      ((pr.1, -entryFee) : String × Int)).map Prod.snd
        = List.replicate (sortedStats rounds).length (-entryFee) := by
    rw [List.map_map]
    exact List.map_const' _ _
  refine ⟨hsorted, hperm, ?_, ?_, ?_, ?_, ?_⟩
  · intro v
    exact filter_insertionSort plLE _
      (fun a b ha hb => by
        simp only [decide_eq_true_eq] at ha hb
        show a.2.pointsLost ≤ b.2.pointsLost
        rw [ha, hb]) _
  · simp only [calculatePayouts]
    rw [addPrizes_length, List.length_map, hlen]
  · intro i h h2
    have hl : i < ((sortedStats rounds).map fun pr : String × PlayerStats =>
        ((pr.1, -entryFee) : String × Int)).length := by
      simpa using h2
    have h' : i < (addPrizes ((sortedStats rounds).map fun pr =>
        (pr.1, -entryFee)) [8, 6, 2]).length := h
    simp only [calculatePayouts]
    rw [addPrizes_get _ _ i h' hl]
    simp
  · simp only [calculatePayouts]
    rw [addPrizes_sum, hmapsnd, List.length_map, hlen, List.sum_replicate,
      nsmul_eq_mul]
    ring
  · intro h3
    simp only [calculatePayouts]
    rw [addPrizes_sum, hmapsnd, List.length_map, hlen, List.sum_replicate,
      nsmul_eq_mul, List.take_of_length_le (by simpa using h3)]
    have h16 : ([8, 6, 2] : List Int).sum = 16 := by decide
    rw [h16]
    ring

/-- A player's running side-bet total (0 if absent, matching
`totals[player] || 0`). -/
def totOf (p : String) (st : List (String × Int)) : Int := (lookupA p st).getD 0

theorem totOf_upsert_add (p t : String) (a : Int) (st : List (String × Int)) :
    totOf p (upsert t (· + a) 0 st) = totOf p st + (if t = p then a else 0) := by
  by_cases h : t = p
  · subst h; rw [totOf, lookupA_upsert_self]; simp [totOf]
  · rw [totOf, lookupA_upsert_ne p t h, if_neg h, add_zero, totOf]

theorem totOf_upsert_sub (p t : String) (a : Int) (st : List (String × Int)) :
    totOf p (upsert t (· - a) 0 st) = totOf p st - (if t = p then a else 0) := by
  by_cases h : t = p
  · subst h; rw [totOf, lookupA_upsert_self]; simp [totOf]
  · rw [totOf, lookupA_upsert_ne p t h, if_neg h, sub_zero, totOf]

/-- What one side bet adds to `p`'s total: `+amount` per slot of the
winning side that is `p`, `−amount` per such slot of the losing side,
nothing when unsettled. -/
def betDelta (p : String) (b : SideBet) : Int :=
  if b.winner = some 1 then
    (cntSide p b.team1 : Int) * b.amount - (cntSide p b.team2 : Int) * b.amount
  else if b.winner = some 2 then
    (cntSide p b.team2 : Int) * b.amount - (cntSide p b.team1 : Int) * b.amount
  else 0

theorem totOf_sideBetStep (p : String) (st : List (String × Int)) (b : SideBet) :
    totOf p (sideBetStep st b) = totOf p st + betDelta p b := by
  unfold sideBetStep betDelta
  by_cases h1 : b.winner = some 1
  · rw [if_pos h1, if_pos h1, totOf_upsert_sub, totOf_upsert_sub,
      totOf_upsert_add, totOf_upsert_add]
    unfold cntSide
    push_cast
    split_ifs <;> ring
  · rw [if_neg h1, if_neg h1]
    by_cases h2 : b.winner = some 2
    · rw [if_pos h2, if_pos h2, totOf_upsert_sub, totOf_upsert_sub,
        totOf_upsert_add, totOf_upsert_add]
      unfold cntSide
      push_cast
      split_ifs <;> ring
    · rw [if_neg h2, if_neg h2, add_zero]

theorem totOf_sideBetTotals (p : String) (bets : List SideBet) :
    totOf p (calculateSideBetTotals bets) = ((bets.map (betDelta p)).sum) := by
  have key : ∀ (bs : List SideBet) (st : List (String × Int)),
      totOf p (bs.foldl sideBetStep st) = totOf p st + ((bs.map (betDelta p)).sum) := by
    intro bs
    induction bs with
    | nil => simp
    | cons b rest ih => intro st; simp [ih, totOf_sideBetStep, add_assoc]
  have := key bets []
  simpa [calculateSideBetTotals, totOf, lookupA] using this

/-- Membership of a player in a two-player side. -/
def onSide (p : String) (t : String × String) : Prop := t.1 = p ∨ t.2 = p

instance (p : String) (t : String × String) : Decidable (onSide p t) :=
  inferInstanceAs (Decidable (_ ∨ _))

/-- A side bet whose four slots name four pairwise distinct players. -/
def wellFormedBet (b : SideBet) : Prop :=
  b.team1.1 ≠ b.team1.2 ∧ b.team2.1 ≠ b.team2.2 ∧ b.team1.1 ≠ b.team2.1
    ∧ b.team1.1 ≠ b.team2.2 ∧ b.team1.2 ≠ b.team2.1 ∧ b.team1.2 ≠ b.team2.2

instance (b : SideBet) : Decidable (wellFormedBet b) :=
  inferInstanceAs (Decidable (_ ∧ _))

theorem cntSide_eq_ite (p : String) (t : String × String) (h : t.1 ≠ t.2) :
    (cntSide p t : Int) = if onSide p t then 1 else 0 := by
  unfold cntSide onSide
  by_cases a : t.1 = p <;> by_cases b : t.2 = p <;> simp [a, b]
  exact h (a.trans b.symm)

theorem betDelta_wellFormed (p : String) (b : SideBet) (hb : wellFormedBet b) :
    betDelta p b
      = (if b.winner = some 1 then
          (if onSide p b.team1 then b.amount
            else if onSide p b.team2 then -b.amount else 0)
        else if b.winner = some 2 then
          (if onSide p b.team2 then b.amount
            else if onSide p b.team1 then -b.amount else 0)
        else 0) := by
  obtain ⟨h1, h2, h3, h4, h5, h6⟩ := hb
  have hnb : ¬ (onSide p b.team1 ∧ onSide p b.team2) := by
    rintro ⟨ha | ha, hc | hc⟩
    · exact h3 (ha.trans hc.symm)
    · exact h4 (ha.trans hc.symm)
    · exact h5 (ha.trans hc.symm)
    · exact h6 (ha.trans hc.symm)
  unfold betDelta
  rw [cntSide_eq_ite p b.team1 h1, cntSide_eq_ite p b.team2 h2]
  by_cases w1 : b.winner = some 1
  · simp only [if_pos w1]
    by_cases o1 : onSide p b.team1
    · have o2 : ¬ onSide p b.team2 := fun h => hnb ⟨o1, h⟩
      simp [o1, o2]
    · by_cases o2 : onSide p b.team2 <;> simp [o1, o2]
  · simp only [if_neg w1]
    by_cases w2 : b.winner = some 2
    · simp only [if_pos w2]
      by_cases o2 : onSide p b.team2
      · have o1 : ¬ onSide p b.team1 := fun h => hnb ⟨h, o2⟩
        simp [o1, o2]
      · by_cases o1 : onSide p b.team1 <;> simp [o1, o2]
    · simp [w2]

/-- C8: for every list of side bets whose sides name four distinct
players, each settled bet contributes `+amount` to the total of each
winning-side player and `−amount` to that of each losing-side player, an
unsettled bet (`winner = null`) contributes nothing, and each player's
total is the sum of these contributions over all bets. -/
theorem c8_side_bets (bets : List SideBet) (hw : ∀ b ∈ bets, wellFormedBet b)
    (p : String) :
    totOf p (calculateSideBetTotals bets)
      = ((bets.map fun b =>
          if b.winner = some 1 then
            (if onSide p b.team1 then b.amount
              else if onSide p b.team2 then -b.amount else 0)
          else if b.winner = some 2 then
            (if onSide p b.team2 then b.amount
              else if onSide p b.team1 then -b.amount else 0)
          else 0).sum) := by
  rw [totOf_sideBetTotals]
  congr 1
  exact List.map_congr_left fun b hb => betDelta_wellFormed p b (hw b hb)

/-- Two concrete side bets: a settled one (team 1 wins the stake of 5) and
an unsettled one. -/
def demoBets : List SideBet :=
  [{ id := 1, team1 := ("A", "B"), team2 := ("C", "D"), amount := 5, winner := some 1 },
   { id := 2, team1 := ("A", "C"), team2 := ("B", "D"), amount := 3, winner := none }]

/-- Witness for C8 at the concrete bets: only the settled bet counts. -/
theorem c8_witness :
    (∀ b ∈ demoBets, wellFormedBet b)
      ∧ totOf "A" (calculateSideBetTotals demoBets)
          = ((demoBets.map fun b =>
              if b.winner = some 1 then
                (if onSide "A" b.team1 then b.amount
                  else if onSide "A" b.team2 then -b.amount else 0)
              else if b.winner = some 2 then
                (if onSide "A" b.team2 then b.amount
                  else if onSide "A" b.team1 then -b.amount else 0)
              else 0).sum) :=
  ⟨by decide, c8_side_bets demoBets (by decide) "A"⟩

/-- Per-team accumulators of `calculateTeamStats`. -/
structure TeamStats where
  teamName : String
  players : String × String
  wins : Nat := 0
  losses : Nat := 0
  pointsScored : Int := 0
  pointsConceded : Int := 0
  pointDifferential : Int := 0
  pointsLost : Int := 0
  gameScores : List Int := []
deriving Repr, DecidableEq

/-- `[...team].sort().join(' & ')`: the canonical key of a team. -/
def teamKey (t : Team) : String :=
  if t.1 ≤ t.2 then t.1 ++ " & " ++ t.2 else t.2 ++ " & " ++ t.1

/-- The mutation of one team's record for one scored game: `my` and `opp`
are this team's and the opponents' scores. The point differential is
recomputed from the updated totals, exactly as the source reassigns it
after each fold. -/
def applyTeamSide (my opp : Int) (s : TeamStats) : TeamStats :=
  let ps := s.pointsScored + my
  let pc := s.pointsConceded + opp
  { s with
    pointsScored := ps,
    pointsConceded := pc,
    pointsLost := s.pointsLost + (MAX_POINTS_PER_GAME - my),
    gameScores := s.gameScores ++ [my],
    wins := if my > opp then s.wins + 1 else s.wins,
    losses := if opp > my then s.losses + 1 else s.losses,
    pointDifferential := ps - pc }

/-- Fold one game into the team map (keyed by canonical team name; a
missing key is initialized with this game's side orientation). -/
def teamStep (st : List (String × TeamStats)) (g : Game) : List (String × TeamStats) :=
  match g.team1Score, g.team2Score with
  | some s1, some s2 =>
    upsert (teamKey g.team2) (applyTeamSide s2 s1)
      { teamName := teamKey g.team2, players := g.team2 }
      (upsert (teamKey g.team1) (applyTeamSide s1 s2)
        { teamName := teamKey g.team1, players := g.team1 } st)
  | _, _ => st

/-- The team records in encounter order (`Array.from(teamMap.values())`). -/
def teamValues (rounds : List Round) : List TeamStats :=
  (rounds.foldl (fun st r => r.games.foldl teamStep st) []).map Prod.snd

/-- The comparator `b.wins - a.wins`, ties by `b.pointDifferential -
a.pointDifferential`, as a preorder ("a comes no later than b"). -/
def teamLE (a b : TeamStats) : Prop :=
  b.wins < a.wins ∨ (a.wins = b.wins ∧ b.pointDifferential ≤ a.pointDifferential)

instance : DecidableRel teamLE := fun _ _ => inferInstanceAs (Decidable (_ ∨ _))

/-- `calculateTeamStats`: the team records sorted by wins descending, then
point differential descending (stable). -/
def calculateTeamStats (rounds : List Round) : List TeamStats :=
  (teamValues rounds).insertionSort teamLE

-- sanity examples for the stats embedding
example :
    calculatePlayerStats
      [{ roundNumber := 1,
         games := [{ id := 1, team1 := ("A", "B"), team2 := ("C", "D"),
                     team1Score := some 21, team2Score := some 15 }] }] =
    [("A", { totalPoints := 21, pointsLost := 0, gamesPlayed := 1, wins := 1,
             losses := 0, gameScores := [21] }),
     ("B", { totalPoints := 21, pointsLost := 0, gamesPlayed := 1, wins := 1,
             losses := 0, gameScores := [21] }),
     ("C", { totalPoints := 15, pointsLost := 6, gamesPlayed := 1, wins := 0,
             losses := 1, gameScores := [15] }),
     ("D", { totalPoints := 15, pointsLost := 6, gamesPlayed := 1, wins := 0,
             losses := 1, gameScores := [15] })] := by decide

instance : IsTotal TeamStats teamLE := by
  refine ⟨fun a b => ?_⟩
  rcases Nat.lt_trichotomy a.wins b.wins with h | h | h
  · exact Or.inr (Or.inl h)
  · rcases le_total a.pointDifferential b.pointDifferential with hd | hd
    · exact Or.inr (Or.inr ⟨h.symm, hd⟩)
    · exact Or.inl (Or.inr ⟨h, hd⟩)
  · exact Or.inl (Or.inl h)

instance : IsTrans TeamStats teamLE := by
  refine ⟨fun a b c hab hbc => ?_⟩
  rcases hab with h1 | ⟨h1, h2⟩
  · rcases hbc with h3 | ⟨h3, h4⟩
    · exact Or.inl (h3.trans h1)
    · exact Or.inl (h3 ▸ h1)
  · rcases hbc with h3 | ⟨h3, h4⟩
    · exact Or.inl (h1 ▸ h3)
    · exact Or.inr ⟨h1.trans h3, h4.trans h2⟩

theorem upsert_forall {α : Type _} {P : α → Prop} (t : String) (f : α → α) (d : α)
    (st : List (String × α)) (hf : ∀ s, P (f s)) (hst : ∀ e ∈ st, P e.2) :
    ∀ e ∈ upsert t f d st, P e.2 := by
  induction st with
  | nil =>
    intro e he
    simp only [upsert, List.mem_singleton] at he
    subst he
    exact hf d
  | cons x rest ih =>
    intro e he
    unfold upsert at he
    by_cases h : x.1 = t
    · rw [if_pos h] at he
      rcases List.mem_cons.mp he with h2 | h2
      · subst h2; exact hf x.2
      · exact hst e (List.mem_cons_of_mem x h2)
    · rw [if_neg h] at he
      rcases List.mem_cons.mp he with h2 | h2
      · subst h2; exact hst x (List.mem_cons_self x rest)
      · exact ih (fun e2 he2 => hst e2 (List.mem_cons_of_mem x he2)) e h2

/-- The point-differential invariant: `applyTeamSide` always writes
`pointDifferential = pointsScored − pointsConceded`. -/
theorem applyTeamSide_pd (my opp : Int) (s : TeamStats) :
    (applyTeamSide my opp s).pointDifferential
      = (applyTeamSide my opp s).pointsScored
        - (applyTeamSide my opp s).pointsConceded := by
  simp [applyTeamSide]

theorem teamStep_pd (st : List (String × TeamStats)) (g : Game)
    (hst : ∀ e ∈ st, e.2.pointDifferential = e.2.pointsScored - e.2.pointsConceded) :
    ∀ e ∈ teamStep st g,
      e.2.pointDifferential = e.2.pointsScored - e.2.pointsConceded := by
  unfold teamStep
  cases g.team1Score <;> cases g.team2Score <;> simp only
  case some.some s1 s2 =>
    exact upsert_forall
      (P := fun x => x.pointDifferential = x.pointsScored - x.pointsConceded)
      _ _ _ _ (fun s => applyTeamSide_pd s2 s1 s)
      (upsert_forall
        (P := fun x => x.pointDifferential = x.pointsScored - x.pointsConceded)
        _ _ _ _ (fun s => applyTeamSide_pd s1 s2 s) hst)
  all_goals exact hst

theorem teamValues_pd (rounds : List Round) :
    ∀ ts ∈ teamValues rounds,
      ts.pointDifferential = ts.pointsScored - ts.pointsConceded := by
  have key : ∀ (rs : List Round) (st : List (String × TeamStats)),
      (∀ e ∈ st, e.2.pointDifferential = e.2.pointsScored - e.2.pointsConceded) →
      ∀ e ∈ rs.foldl (fun st r => r.games.foldl teamStep st) st,
        e.2.pointDifferential = e.2.pointsScored - e.2.pointsConceded := by
    intro rs
    induction rs with
    | nil => intro st hst; exact hst
    | cons r rest ih =>
      intro st hst
      refine ih _ ?_
      have inner : ∀ (gs : List Game) (st2 : List (String × TeamStats)),
          (∀ e ∈ st2, e.2.pointDifferential = e.2.pointsScored - e.2.pointsConceded) →
          ∀ e ∈ gs.foldl teamStep st2,
            e.2.pointDifferential = e.2.pointsScored - e.2.pointsConceded := by
        intro gs
        induction gs with
        | nil => intro st2 hst2; exact hst2
        | cons g grest gih => intro st2 hst2; exact gih _ (teamStep_pd st2 g hst2)
      exact inner r.games st hst
  intro ts hts
  unfold teamValues at hts
  obtain ⟨e, he, rfl⟩ := List.mem_map.mp hts
  exact key rounds [] (by simp) e he

/-- C7: `calculateTeamStats` returns the team records sorted by wins
descending with ties broken by point differential descending (`teamLE`),
as a permutation of the encounter-order records in which teams equal on
both sort keys keep their encounter order (stable sort), and every
record's `pointDifferential` equals its `pointsScored − pointsConceded`. -/
theorem c7_team_stats (rounds : List Round) :
    (calculateTeamStats rounds).Pairwise
        (fun a b => b.wins < a.wins
          ∨ (a.wins = b.wins ∧ b.pointDifferential ≤ a.pointDifferential))
      ∧ (calculateTeamStats rounds).Perm (teamValues rounds)
      ∧ (∀ (w : Nat) (d : Int), (calculateTeamStats rounds).filter
            (fun ts => decide (ts.wins = w ∧ ts.pointDifferential = d))
          = (teamValues rounds).filter
            (fun ts => decide (ts.wins = w ∧ ts.pointDifferential = d)))
      ∧ (∀ ts ∈ calculateTeamStats rounds,
          ts.pointDifferential = ts.pointsScored - ts.pointsConceded) := by
  refine ⟨List.sorted_insertionSort teamLE (teamValues rounds),
    List.perm_insertionSort teamLE (teamValues rounds), ?_, ?_⟩
  · intro w d
    refine filter_insertionSort teamLE _ (fun a b ha hb => ?_) _
    simp only [decide_eq_true_eq] at ha hb
    exact Or.inr ⟨ha.1.trans hb.1.symm, le_of_eq (hb.2.trans ha.2.symm)⟩
  · intro ts hts
    exact teamValues_pd rounds ts ((List.mem_insertionSort teamLE).mp hts)

/-- The two same-side partnerships of a game, as unordered pairs. -/
def gamePairs (g : Game) : List (Sym2 String) :=
  [s(g.team1.1, g.team1.2), s(g.team2.1, g.team2.2)]

/-- All partnerships of a schedule, in game order. -/
def schedulePairs (rs : List Round) : List (Sym2 String) :=
  (rs.flatMap Round.games).flatMap gamePairs

/-- The players occupying the slots of a round, in slot order. -/
def roundPlayers (r : Round) : List String :=
  r.games.flatMap fun g => [g.team1.1, g.team1.2, g.team2.1, g.team2.2]

/-- The partnerships of the fixed 8-player template, at position level, in
the order `schedulePairs` enumerates them. -/
def templatePairs : List (Sym2 (Fin 8)) :=
  [s(0, 1), s(2, 3), s(4, 5), s(6, 7),
   s(0, 2), s(4, 6), s(1, 3), s(5, 7),
   s(0, 3), s(5, 6), s(1, 2), s(4, 7),
   s(0, 4), s(3, 7), s(1, 5), s(2, 6),
   s(0, 5), s(1, 4), s(2, 7), s(3, 6),
   s(0, 6), s(1, 7), s(2, 4), s(3, 5),
   s(0, 7), s(1, 6), s(2, 5), s(3, 4)]

/-- The slot occupants of each template round, at position level. -/
def templateSlots : List (List (Fin 8)) :=
  [[0, 1, 2, 3, 4, 5, 6, 7],
   [0, 2, 4, 6, 1, 3, 5, 7],
   [0, 3, 5, 6, 1, 2, 4, 7],
   [0, 4, 3, 7, 1, 5, 2, 6],
   [0, 5, 1, 4, 2, 7, 3, 6],
   [0, 6, 1, 7, 2, 4, 3, 5],
   [0, 7, 1, 6, 2, 5, 3, 4]]

theorem templatePairs_count : ∀ i j : Fin 8, i ≠ j → templatePairs.count s(i, j) = 1 := by
  decide

theorem templateSlots_count :
    ∀ i : Fin 8, templateSlots.map (fun tr => tr.count i) = List.replicate 7 1 := by
  decide

theorem schedulePairs_template (sp : List String) :
    schedulePairs (mkRounds sp 1 1 scheduleTemplate)
      = templatePairs.map (Sym2.map fun i : Fin 8 => sp.getD i.val "") := rfl

theorem roundPlayers_template (sp : List String) :
    (mkRounds sp 1 1 scheduleTemplate).map roundPlayers
      = templateSlots.map (List.map fun i : Fin 8 => sp.getD i.val "") := rfl

theorem getD_injective {α : Type _} {l : List α} {n : Nat} (d : α)
    (hn : l.length = n) (hnd : l.Nodup) :
    Function.Injective (fun i : Fin n => l.getD i.val d) := by
  intro a b hab
  have ha : a.val < l.length := by rw [hn]; exact a.isLt
  have hb : b.val < l.length := by rw [hn]; exact b.isLt
  simp only at hab
  rw [List.getD_eq_getElem l d ha, List.getD_eq_getElem l d hb] at hab
  have hinj := List.nodup_iff_injective_getElem.mp hnd
  have h3 : (⟨a.val, ha⟩ : Fin l.length) = ⟨b.val, hb⟩ := hinj hab
  have h4 := congrArg Fin.val h3
  exact Fin.ext h4

/-- C2: for 8 distinct players and every outcome of the random shuffle,
the generated schedule has 7 rounds of 2 games each with game ids 1..14 in
order, every unordered pair of distinct input players is a same-side
partnership exactly once (all 28 pairings), and every player occupies
exactly one slot in every round (7 games, one per round). -/
theorem c2_round_robin (players : List String) (rand : Nat → Nat)
    (h8 : players.length = 8) (hnd : players.Nodup) (rs : List Round)
    (hok : generateRoundRobinSchedule players rand = .ok rs) :
    rs.length = 7
      ∧ rs.map (fun r => r.games.length) = List.replicate 7 2
      ∧ (rs.flatMap Round.games).map Game.id = List.range' 1 14
      ∧ (∀ p q, p ∈ players → q ∈ players → p ≠ q →
          (schedulePairs rs).count s(p, q) = 1)
      ∧ (∀ p ∈ players,
          rs.map (fun r => (roundPlayers r).count p) = List.replicate 7 1) := by
  have hrs : rs = mkRounds (shuffleArray players rand) 1 1 scheduleTemplate := by
    rw [generateRoundRobinSchedule, if_neg (by omega)] at hok
    exact (Except.ok.inj hok).symm
  subst hrs
  have hlen : (shuffleArray players rand).length = 8 := by
    rw [length_shuffleArray, h8]
  have hnd2 : (shuffleArray players rand).Nodup :=
    nodup_shuffleArray players rand hnd
  have hfinj := getD_injective "" hlen hnd2
  have hidx : ∀ p ∈ players, ∃ i : Fin 8,
      (fun i : Fin 8 => (shuffleArray players rand).getD i.val "") i = p := by
    intro p hp
    have hp2 : p ∈ shuffleArray players rand := (mem_shuffleArray rand).mpr hp
    obtain ⟨n, hn, hsn⟩ := List.getElem_of_mem hp2
    refine ⟨⟨n, by omega⟩, ?_⟩
    show (shuffleArray players rand).getD n "" = p
    rw [List.getD_eq_getElem _ "" hn]
    exact hsn
  refine ⟨rfl, rfl, rfl, ?_, ?_⟩
  · intro p q hp hq hpq
    obtain ⟨i, hfi⟩ := hidx p hp
    obtain ⟨j, hfj⟩ := hidx q hq
    have hij : i ≠ j := fun h => hpq (hfi ▸ hfj ▸
      congrArg (fun i : Fin 8 => (shuffleArray players rand).getD i.val "") h)
    have hfi2 : (shuffleArray players rand).getD i.val "" = p := hfi
    have hfj2 : (shuffleArray players rand).getD j.val "" = q := hfj
    rw [schedulePairs_template, ← hfi2, ← hfj2]
    have heq : s((shuffleArray players rand).getD i.val "",
        (shuffleArray players rand).getD j.val "")
        = Sym2.map (fun k : Fin 8 => (shuffleArray players rand).getD k.val "")
            s(i, j) := rfl
    rw [heq, List.count_map_of_injective _ _ (Sym2.map.injective hfinj)]
    exact templatePairs_count i j hij
  · intro p hp
    obtain ⟨i, hfi⟩ := hidx p hp
    have h1 : (mkRounds (shuffleArray players rand) 1 1 scheduleTemplate).map
        (fun r => (roundPlayers r).count p)
        = ((mkRounds (shuffleArray players rand) 1 1 scheduleTemplate).map
            roundPlayers).map (fun l => l.count p) := by
      rw [List.map_map]; rfl
    rw [h1, roundPlayers_template, List.map_map]
    have h2 : ∀ tr ∈ templateSlots,
        ((fun l : List String => l.count p) ∘
          (List.map fun i : Fin 8 => (shuffleArray players rand).getD i.val "")) tr
          = tr.count i := by
      intro tr _
      simp only [Function.comp_apply]
      rw [← hfi, List.count_map_of_injective _ _ hfinj]
    rw [List.map_congr_left h2]
    exact templateSlots_count i

/-- Eight concrete player names for the 8-player witness. -/
def demo8 : List String := ["A", "B", "C", "D", "E", "F", "G", "H"]

/-- The concrete schedule the 8-player generator produces from `demo8`
with the all-zero draw oracle. -/
def demoSched8 : List Round :=
  mkRounds (shuffleArray demo8 (fun _ => 0)) 1 1 scheduleTemplate

/-- Witness for C2 at the concrete 8-player input. -/
theorem c2_witness :
    demo8.length = 8 ∧ demo8.Nodup
      ∧ (demoSched8.length = 7
          ∧ demoSched8.map (fun r => r.games.length) = List.replicate 7 2
          ∧ (demoSched8.flatMap Round.games).map Game.id = List.range' 1 14
          ∧ (∀ p q, p ∈ demo8 → q ∈ demo8 → p ≠ q →
              (schedulePairs demoSched8).count s(p, q) = 1)
          ∧ (∀ p ∈ demo8,
              demoSched8.map (fun r => (roundPlayers r).count p)
                = List.replicate 7 1)) :=
  ⟨by decide, by decide,
    c2_round_robin demo8 (fun _ => 0) (by decide) (by decide) demoSched8 rfl⟩

theorem count_map_inj {α β : Type _} [BEq α] [LawfulBEq α] [BEq β] [LawfulBEq β]
    (l : List α) (f : α → β) (hf : Function.Injective f) (x : α) :
    (l.map f).count (f x) = l.count x := by
  induction l with
  | nil => rfl
  | cons a l ih =>
    simp only [List.map_cons, List.count_cons, ih]
    congr 1
    have : (f a == f x) = (a == x) := by
      by_cases h : a = x
      · simp [h]
      · have h2 : f a ≠ f x := fun he => h (hf he)
        simp [h, h2]
    rw [this]

/-- The unordered team matchups of a schedule, in game order. -/
def scheduleMatchups (rs : List Round) : List (Sym2 Team) :=
  (rs.flatMap Round.games).map fun g => s(g.team1, g.team2)

/-- The teams occupying the sides of a round, in side order. -/
def roundTeams (r : Round) : List Team :=
  r.games.flatMap fun g => [g.team1, g.team2]

/-- The matchups the circle method produces, at team-index level, in the
order `scheduleMatchups` enumerates them. -/
def matchTemplate : List (Sym2 (Fin 6)) :=
  [s(0, 1), s(2, 5), s(3, 4),
   s(0, 5), s(1, 4), s(2, 3),
   s(0, 4), s(5, 3), s(1, 2),
   s(0, 3), s(4, 2), s(5, 1),
   s(0, 2), s(3, 1), s(4, 5)]

/-- The side occupants of each circle-method round, at team-index level. -/
def slotTemplate : List (List (Fin 6)) :=
  [[0, 1, 2, 5, 3, 4],
   [0, 5, 1, 4, 2, 3],
   [0, 4, 5, 3, 1, 2],
   [0, 3, 4, 2, 5, 1],
   [0, 2, 3, 1, 4, 5]]

theorem matchTemplate_count : ∀ i j : Fin 6, i ≠ j → matchTemplate.count s(i, j) = 1 := by
  decide

theorem slotTemplate_count :
    ∀ i : Fin 6, slotTemplate.map (fun tr => tr.count i) = List.replicate 5 1 := by
  decide

theorem scheduleMatchups_template (teams : List Team) :
    scheduleMatchups (buildCircleSchedule teams)
      = matchTemplate.map (Sym2.map fun k : Fin 6 => teams.getD k.val ("", "")) := rfl

theorem roundTeams_template (teams : List Team) :
    (buildCircleSchedule teams).map roundTeams
      = slotTemplate.map (List.map fun k : Fin 6 => teams.getD k.val ("", "")) := rfl

/-- The players of a team list, in slot order. -/
def teamPlayers (ts : List Team) : List String :=
  ts.flatMap fun t => [t.1, t.2]

/-- A caller-supplied partition of the players into 6 disjoint pairs. -/
def validPartition (ct : List Team) (players : List String) : Prop :=
  ct.length = 6 ∧ (teamPlayers ct).Perm players

theorem nodup_of_teamPlayers_nodup (ts : List Team)
    (h : (teamPlayers ts).Nodup) : ts.Nodup := by
  induction ts with
  | nil => exact List.nodup_nil
  | cons t rest ih =>
    have h2 : teamPlayers (t :: rest) = t.1 :: t.2 :: teamPlayers rest := rfl
    rw [h2, List.nodup_cons, List.nodup_cons] at h
    refine List.nodup_cons.mpr ⟨?_, ih h.2.2⟩
    intro hmem
    apply h.1
    apply List.mem_cons.mpr
    refine Or.inr (List.mem_flatMap.mpr ⟨t, hmem, ?_⟩)
    simp

theorem teamPlayers_pairTeams (sp : List String) (h : sp.length = 12) :
    teamPlayers (pairTeams sp) = sp := by
  rcases sp with _ | ⟨a0, sp⟩; · simp at h
  rcases sp with _ | ⟨a1, sp⟩; · simp at h
  rcases sp with _ | ⟨a2, sp⟩; · simp at h
  rcases sp with _ | ⟨a3, sp⟩; · simp at h
  rcases sp with _ | ⟨a4, sp⟩; · simp at h
  rcases sp with _ | ⟨a5, sp⟩; · simp at h
  rcases sp with _ | ⟨a6, sp⟩; · simp at h
  rcases sp with _ | ⟨a7, sp⟩; · simp at h
  rcases sp with _ | ⟨a8, sp⟩; · simp at h
  rcases sp with _ | ⟨a9, sp⟩; · simp at h
  rcases sp with _ | ⟨a10, sp⟩; · simp at h
  rcases sp with _ | ⟨a11, sp⟩; · simp at h
  rcases sp with _ | ⟨a12, sp⟩
  · rfl
  · simp [List.length_cons] at h

/-- C3: for 12 distinct players, with either no custom teams or a custom
partition into 6 disjoint pairs, and for every outcome of the random
pairing, the generated schedule has 5 rounds of 3 games each, the 6 teams
used are distinct and are the only sides appearing, every unordered pair
of distinct teams meets in exactly one game (all 15 matchups), and every
team occupies exactly one side in every round (5 games, one per round). -/
theorem c3_twelve_schedule (players : List String)
    (customTeams : Option (List Team)) (rand : Nat → Nat)
    (h12 : players.length = 12) (hnd : players.Nodup)
    (hct : customTeams = none
      ∨ ∃ ct, customTeams = some ct ∧ validPartition ct players)
    (rs : List Round)
    (hok : generate12PlayerSchedule players customTeams rand = .ok rs) :
    rs.length = 5
      ∧ rs.map (fun r => r.games.length) = List.replicate 5 3
      ∧ (teamsFor players customTeams rand).length = 6
      ∧ (teamsFor players customTeams rand).Nodup
      ∧ (∀ r ∈ rs, ∀ t ∈ roundTeams r, t ∈ teamsFor players customTeams rand)
      ∧ (∀ t1 t2, t1 ∈ teamsFor players customTeams rand →
          t2 ∈ teamsFor players customTeams rand → t1 ≠ t2 →
          (scheduleMatchups rs).count s(t1, t2) = 1)
      ∧ (∀ t ∈ teamsFor players customTeams rand,
          rs.map (fun r => (roundTeams r).count t) = List.replicate 5 1) := by
  have hrs : rs = buildCircleSchedule (teamsFor players customTeams rand) := by
    rw [generate12PlayerSchedule, if_neg (by omega)] at hok
    exact (Except.ok.inj hok).symm
  subst hrs
  have hsp12 : (shuffleArray players rand).length = 12 := by
    rw [length_shuffleArray, h12]
  have hspnd : (shuffleArray players rand).Nodup :=
    nodup_shuffleArray players rand hnd
  have hT6 : (teamsFor players customTeams rand).length = 6 := by
    rcases hct with h | ⟨ct, hct2, hv⟩
    · subst h; rfl
    · subst hct2
      rw [teamsFor, if_pos hv.1]
      exact hv.1
  have hTnd : (teamsFor players customTeams rand).Nodup := by
    rcases hct with h | ⟨ct, hct2, hv⟩
    · subst h
      apply nodup_of_teamPlayers_nodup
      rw [teamsFor, teamPlayers_pairTeams _ hsp12]
      exact hspnd
    · subst hct2
      rw [teamsFor, if_pos hv.1]
      exact nodup_of_teamPlayers_nodup ct (hv.2.nodup_iff.mpr hnd)
  have hginj := getD_injective ("", "") hT6 hTnd
  have hidx : ∀ t ∈ teamsFor players customTeams rand, ∃ k : Fin 6,
      (teamsFor players customTeams rand).getD k.val ("", "") = t := by
    intro t ht
    obtain ⟨n, hn, hsn⟩ := List.getElem_of_mem ht
    refine ⟨⟨n, by omega⟩, ?_⟩
    rw [List.getD_eq_getElem _ ("", "") hn]
    exact hsn
  have hmemT : ∀ k : Fin 6,
      (teamsFor players customTeams rand).getD k.val ("", "")
        ∈ teamsFor players customTeams rand := by
    intro k
    have hk : k.val < (teamsFor players customTeams rand).length := by
      rw [hT6]; exact k.isLt
    rw [List.getD_eq_getElem _ ("", "") hk]
    exact List.getElem_mem hk
  refine ⟨rfl, rfl, hT6, hTnd, ?_, ?_, ?_⟩
  · intro r hr t ht
    have hmap : roundTeams r ∈ (buildCircleSchedule
        (teamsFor players customTeams rand)).map roundTeams :=
      List.mem_map_of_mem roundTeams hr
    rw [roundTeams_template] at hmap
    obtain ⟨tr, _, htr⟩ := List.mem_map.mp hmap
    rw [← htr] at ht
    obtain ⟨k, _, hk⟩ := List.mem_map.mp ht
    rw [← hk]
    exact hmemT k
  · intro t1 t2 ht1 ht2 hne
    obtain ⟨i, hgi⟩ := hidx t1 ht1
    obtain ⟨j, hgj⟩ := hidx t2 ht2
    have hij : i ≠ j := fun h => hne (hgi ▸ hgj ▸
      congrArg (fun k : Fin 6 =>
        (teamsFor players customTeams rand).getD k.val ("", "")) h)
    rw [scheduleMatchups_template, ← hgi, ← hgj]
    have heq : s((teamsFor players customTeams rand).getD i.val ("", ""),
        (teamsFor players customTeams rand).getD j.val ("", ""))
        = Sym2.map (fun k : Fin 6 =>
            (teamsFor players customTeams rand).getD k.val ("", "")) s(i, j) := rfl
    rw [heq, List.count_map_of_injective _ _ (Sym2.map.injective hginj)]
    exact matchTemplate_count i j hij
  · intro t ht
    obtain ⟨i, hgi⟩ := hidx t ht
    have h1 : (buildCircleSchedule (teamsFor players customTeams rand)).map
        (fun r => (roundTeams r).count t)
        = ((buildCircleSchedule (teamsFor players customTeams rand)).map
            roundTeams).map (fun l => l.count t) := by
      rw [List.map_map]; rfl
    rw [h1, roundTeams_template, List.map_map]
    have h2 : ∀ tr ∈ slotTemplate,
        ((fun l : List Team => l.count t) ∘
          (List.map fun k : Fin 6 =>
            (teamsFor players customTeams rand).getD k.val ("", ""))) tr
          = tr.count i := by
      intro tr _
      simp only [Function.comp_apply]
      rw [← hgi]
      exact count_map_inj tr _ hginj i
    rw [List.map_congr_left h2]
    exact slotTemplate_count i

/-- The concrete schedule the 12-player generator produces from `demo12`
with random pairing and the all-zero draw oracle. -/
def demoSched12 : List Round :=
  buildCircleSchedule (teamsFor demo12 none (fun _ => 0))

/-- Witness for C3 at the concrete 12-player input with random pairing. -/
theorem c3_witness :
    demo12.length = 12 ∧ demo12.Nodup
      ∧ ((none : Option (List Team)) = none
          ∨ ∃ ct, (none : Option (List Team)) = some ct ∧ validPartition ct demo12)
      ∧ (demoSched12.length = 5
          ∧ demoSched12.map (fun r => r.games.length) = List.replicate 5 3
          ∧ (teamsFor demo12 none (fun _ => 0)).length = 6
          ∧ (teamsFor demo12 none (fun _ => 0)).Nodup
          ∧ (∀ r ∈ demoSched12, ∀ t ∈ roundTeams r,
              t ∈ teamsFor demo12 none (fun _ => 0))
          ∧ (∀ t1 t2, t1 ∈ teamsFor demo12 none (fun _ => 0) →
              t2 ∈ teamsFor demo12 none (fun _ => 0) → t1 ≠ t2 →
              (scheduleMatchups demoSched12).count s(t1, t2) = 1)
          ∧ (∀ t ∈ teamsFor demo12 none (fun _ => 0),
              demoSched12.map (fun r => (roundTeams r).count t)
                = List.replicate 5 1)) :=
  ⟨by decide, by decide, Or.inl rfl,
    c3_twelve_schedule demo12 none (fun _ => 0) (by decide) (by decide)
      (Or.inl rfl) demoSched12 rfl⟩
